import Mathlib

/-!
Shallow embedding of the front-end controller in `src/static/app.js`
(class `ChineseLearningApp`) of the chinese-driving-test repository.

Strings are modelled on `List Char` (Unicode code points); all text the app
processes lies in the basic multilingual plane, where JavaScript code units
and code points coincide.  The DOM state the controller reads and writes is
carried explicitly in an `AppState` record, and each method of the class
becomes a state-transition function.
-/

namespace ChineseLearningApp

/-- A lesson record as loaded from `lessons.json`, or from the built-in
fallback `getSampleLessons`.  Optional JSON fields are `Option`s; JavaScript
truthiness on them is `jsTruthy`. -/
structure LessonRecord where
  id : Nat
  chinese : String
  pinyin : String
  literal : String
  english : String
  audio_file : String
  french : Option String := none
  french_audio_file : Option String := none
  source : Option String := none
deriving DecidableEq, Repr

/-- JavaScript truthiness of an optional string field: absent and `""` are
falsy, any other string truthy. -/
def jsTruthy : Option String → Bool
  | none => false
  | some s => !(s == "")

/-- Model of `getSampleLessons()`: the built-in fallback list of three lessons. -/
def getSampleLessons : List LessonRecord :=
  [ { id := 1
      chinese := "我叫James，我是英国人。"
      pinyin := "Wǒ jiào James, wǒ shì Yīngguó rén."
      literal := "I called James, I am England person."
      english := "My name is James, I am British."
      audio_file := "lesson_01.mp3" },
    { id := 2
      chinese := "我是坐飞机来的上海。"
      pinyin := "Wǒ shì zuò fēijī lái de Shànghǎi."
      literal := "I am sit airplane come [particle] Shanghai."
      english := "I came to Shanghai by airplane."
      audio_file := "lesson_02.mp3" },
    { id := 3
      chinese := "我从今年二月开始在上海工作。"
      pinyin := "Wǒ cóng jīnnián èryuè kāishǐ zài Shànghǎi gōngzuò."
      literal := "I from this-year February start at Shanghai work."
      english := "I started working in Shanghai in February this year."
      audio_file := "lesson_03.mp3" } ]

/-- Unicode simple lowercase mapping on a code point, as performed by
`String.prototype.toLowerCase` on the character ranges this app processes:
ASCII letters, the Latin-1 letter block, and the Latin Extended-A/B case
pairs that carry pinyin tone marks (macron and caron vowels).  Code points
outside these ranges — in particular CJK characters and all punctuation —
have no lowercase mapping and are fixed.  (U+0130, whose lowercase form is
two code points, is excluded from the ranges and left fixed; it never occurs
in the app's data.) -/
def lowerCode (n : Nat) : Nat :=
  if 0x41 ≤ n ∧ n ≤ 0x5A then n + 32
  else if (0xC0 ≤ n ∧ n ≤ 0xDE) ∧ n ≠ 0xD7 then n + 32
  else if (0x100 ≤ n ∧ n ≤ 0x137 ∧ n % 2 = 0) ∧ n ≠ 0x130 then n + 1
  else if 0x139 ≤ n ∧ n ≤ 0x148 ∧ n % 2 = 1 then n + 1
  else if 0x14A ≤ n ∧ n ≤ 0x177 ∧ n % 2 = 0 then n + 1
  else if 0x1CD ≤ n ∧ n ≤ 0x1DB ∧ n % 2 = 1 then n + 1
  else n

/-- JavaScript `toLowerCase` on one character. -/
def jsToLower (c : Char) : Char := Char.ofNat (lowerCode c.toNat)

/-- The character class of `/[.,，。！？!?]/` (the punctuation stripped by
`compareAnswers`), on code points: `.` `,` `，` `。` `！` `？` `!` `?`. -/
def punctCode (n : Nat) : Bool :=
  decide (n = 0x2E ∨ n = 0x2C ∨ n = 0xFF0C ∨ n = 0x3002 ∨
          n = 0xFF01 ∨ n = 0xFF1F ∨ n = 0x21 ∨ n = 0x3F)

/-- Is the character removed by the punctuation `replace` in `compareAnswers`? -/
def isRemovedPunct (c : Char) : Bool := punctCode c.toNat

/-- The character class of `/\s/` in JavaScript regular expressions (also the
set trimmed by `String.prototype.trim`): tab through carriage return, space,
no-break space, Ogham space mark, the U+2000–U+200A spaces, line and paragraph
separators, narrow no-break space, medium mathematical space, ideographic
space, and the byte-order mark. -/
def spaceCode (n : Nat) : Bool :=
  decide ((9 ≤ n ∧ n ≤ 13) ∨ n = 32 ∨ n = 0xA0 ∨ n = 0x1680 ∨
          (0x2000 ≤ n ∧ n ≤ 0x200A) ∨ n = 0x2028 ∨ n = 0x2029 ∨
          n = 0x202F ∨ n = 0x205F ∨ n = 0x3000 ∨ n = 0xFEFF)

/-- Is the character JavaScript whitespace? -/
def isJsSpace (c : Char) : Bool := spaceCode c.toNat

/-- Adjacent characters are not both whitespace. -/
def NoWsPair (a b : Char) : Prop := ¬(isJsSpace a = true ∧ isJsSpace b = true)

/-- Model of `text.replace(/\s+/g, " ")`: every maximal whitespace run becomes a single
space.  The single space for a run is emitted at the run's last character. -/
def collapseSpaces : List Char → List Char
  | [] => []
  | [c] => if isJsSpace c then [' '] else [c]
  | a :: b :: rest =>
    if isJsSpace a && isJsSpace b then collapseSpaces (b :: rest)
    else (if isJsSpace a then ' ' else a) :: collapseSpaces (b :: rest)

/-- Model of `text.trim()` on a character list: drop leading and trailing whitespace. -/
def jsTrimList (l : List Char) : List Char :=
  ((l.dropWhile isJsSpace).reverse.dropWhile isJsSpace).reverse

/-- Model of `text.trim()` on strings. -/
def jsTrim (s : String) : String := ⟨jsTrimList s.data⟩

/-- The `normalize` arrow function inside `compareAnswers`: lowercase, strip
the fixed punctuation set, collapse whitespace runs to one space, trim. -/
def normalizeList (l : List Char) : List Char :=
  jsTrimList (collapseSpaces (((l.map jsToLower).filter (fun c => !isRemovedPunct c))))

/-- The `normalize` arrow function, on strings. -/
def normalize (text : String) : String := ⟨normalizeList text.data⟩

/-- Model of `compareAnswers(userAnswer, correctAnswer)`: equality after normalizing
both sides. -/
def compareAnswers (userAnswer correctAnswer : String) : Bool :=
  normalize userAnswer == normalize correctAnswer

/-- Lowercasing a whole string (used to state case-insensitivity). -/
def jsToLowerString (s : String) : String := ⟨s.data.map jsToLower⟩

/-- Deleting every stripped-punctuation character from a string (used to
state punctuation-insensitivity). -/
def stripPunct (s : String) : String := ⟨s.data.filter (fun c => !isRemovedPunct c)⟩

/-- An `Audio` element created by `new Audio(src)`.  A freshly created handle
is paused at time `0`; `play()` unpauses it.  `isFrench` records which play
button created it (used by the `ended` listener to reset that button). -/
structure AudioHandle where
  src : String
  paused : Bool
  currentTime : Nat
  isFrench : Bool
deriving DecidableEq, Repr

/-- Model of `h.pause(); h.currentTime = 0` — the stop performed on a prior handle
before a new playback starts. -/
def stopHandle (h : AudioHandle) : AudioHandle :=
  { h with paused := true, currentTime := 0 }

/-- The mutable state of the controller: the fields of the
`ChineseLearningApp` instance together with every DOM property its methods
read or write.  `pastAudios` is a ghost field recording handles that have
been overwritten in `currentAudio` (JavaScript drops them for garbage
collection); it lets the at-most-one-active-playback property be stated.
The progress-bar width is kept as an exact rational (display only). -/
structure AppState where
  lessons : List LessonRecord
  currentLessonIndex : Int
  currentLesson : Option LessonRecord
  completedLessons : Finset Nat
  currentAudio : Option AudioHandle
  pastAudios : List AudioHandle
  lessonNumberText : String
  chineseTextContent : String
  pinyinTextContent : String
  literalTextContent : String
  englishTextContent : String
  frenchTextContent : String
  frenchRowVisible : Bool
  playFrenchBtnVisible : Bool
  progressFillPct : Rat
  progressTextContent : String
  lessonSelectValue : Int
  prevBtnDisabled : Bool
  nextBtnDisabled : Bool
  playBtnLabel : String
  playBtnDisabled : Bool
  frenchBtnLabel : String
  frenchBtnDisabled : Bool
  studyHidden : Bool
  practiceHidden : Bool
  practicePinyinChecked : Bool
  practiceAnswerValue : String
  practiceAnswerClass : String
  feedbackClass : String
  feedbackHtml : String
  checkBtnHidden : Bool
  nextPracticeBtnHidden : Bool
  audioStatusText : String
  completedCountText : String
  totalCountText : String
  notifications : List String
deriving DecidableEq

/-- Model of `showNotification(message)`: prepend a transient notification. -/
def showNotification (s : AppState) (message : String) : AppState :=
  { s with notifications := message :: s.notifications }

/-- Model of `updateStats()`: the completed counter displays `completedLessons.size`. -/
def updateStats (s : AppState) : AppState :=
  { s with completedCountText := toString s.completedLessons.card }

/-- Model of `showLesson(index)`: no-op when `index < 0 || index >= lessons.length`;
otherwise set the cursor and refresh the whole study display. -/
def showLesson (s : AppState) (index : Int) : AppState :=
  if h : index < 0 ∨ (s.lessons.length : Int) ≤ index then s
  else
    let lesson := s.lessons.get ⟨index.toNat, by omega⟩
    let sourceLabel := match lesson.source with
      | some src => if src == "" then "" else "[" ++ src ++ "] "
      | none => ""
    { s with
      currentLessonIndex := index
      currentLesson := some lesson
      lessonNumberText := sourceLabel ++ "Lesson " ++ toString lesson.id
      chineseTextContent := lesson.chinese
      pinyinTextContent := lesson.pinyin
      literalTextContent := lesson.literal
      englishTextContent := lesson.english
      frenchTextContent :=
        if jsTruthy lesson.french then lesson.french.getD ""
        else s.frenchTextContent
      frenchRowVisible := jsTruthy lesson.french
      playFrenchBtnVisible := jsTruthy lesson.french
      progressFillPct := (((index : Rat) + 1) / (s.lessons.length : Rat)) * 100
      progressTextContent := "Lesson " ++ toString (index + 1) ++ " of " ++ toString s.lessons.length
      lessonSelectValue := index
      prevBtnDisabled := index == 0
      nextBtnDisabled := index == (s.lessons.length : Int) - 1 }

/-- Model of `previousLesson()`. -/
def previousLesson (s : AppState) : AppState :=
  if 0 < s.currentLessonIndex then showLesson s (s.currentLessonIndex - 1) else s

/-- Model of `nextLesson()`. -/
def nextLesson (s : AppState) : AppState :=
  if s.currentLessonIndex < (s.lessons.length : Int) - 1 then
    showLesson s (s.currentLessonIndex + 1)
  else s

/-- Model of `resetPractice()`. -/
def resetPractice (s : AppState) : AppState :=
  { s with
    practiceAnswerValue := ""
    practiceAnswerClass := ""
    feedbackHtml := ""
    feedbackClass := "feedback-area"
    checkBtnHidden := false
    nextPracticeBtnHidden := true
    audioStatusText := "Click to play audio" }

/-- Model of `enterPracticeMode()`. -/
def enterPracticeMode (s : AppState) : AppState :=
  resetPractice { s with studyHidden := true, practiceHidden := false }

/-- Model of `exitPracticeMode()`. -/
def exitPracticeMode (s : AppState) : AppState :=
  { s with practiceHidden := true, studyHidden := false }

/-- The `practiceType` ternary in `checkAnswer` and `showAnswer`: the expected
answer for the current mode. -/
def expectedAnswer (s : AppState) (lesson : LessonRecord) : String :=
  if s.practicePinyinChecked then lesson.pinyin else lesson.chinese

/-- The `feedbackArea.innerHTML` template of `showCorrectFeedback()`. -/
def correctFeedbackHtml : String :=
  "\n            <strong>✅ Correct!</strong><br>\n            Well done! You got it right.\n        "

/-- The `feedbackArea.innerHTML` template of `showIncorrectFeedback(u, c)`. -/
def incorrectFeedbackHtml (userAnswer correctAnswer : String) : String :=
  "\n            <strong>❌ Not quite right</strong><br>\n            <div class=\"feedback-comparison\">\n                Your answer: <span class=\"user-answer\">" ++
  userAnswer ++
  "</span><br>\n                Correct answer: <span class=\"correct-answer\">" ++
  correctAnswer ++
  "</span>\n            </div>\n            <br><em>Try again or click \"Show Answer\" to see the correct response.</em>\n        "

/-- The `feedbackArea.innerHTML` template of `showAnswer()`. -/
def answerShownHtml (correctAnswer : String) : String :=
  "\n            <strong>💡 Answer shown</strong><br>\n            The correct answer is: <strong>" ++
  correctAnswer ++
  "</strong><br>\n            <em>Study this and try the next lesson!</em>\n        "

/-- Model of `showCorrectFeedback()`. -/
def showCorrectFeedback (s : AppState) : AppState :=
  { s with
    feedbackClass := "feedback-area feedback-correct"
    feedbackHtml := correctFeedbackHtml
    practiceAnswerClass := "correct"
    checkBtnHidden := true
    nextPracticeBtnHidden := false }

/-- Model of `showIncorrectFeedback(userAnswer, correctAnswer)`. -/
def showIncorrectFeedback (s : AppState) (userAnswer correctAnswer : String) :
    AppState :=
  { s with
    feedbackClass := "feedback-area feedback-incorrect"
    feedbackHtml := incorrectFeedbackHtml userAnswer correctAnswer
    practiceAnswerClass := "incorrect" }

/-- Model of `checkAnswer()`.  An empty (post-trim) input is rejected with a prompt
before any comparison.  (With no loaded lesson the JavaScript would fault on
`this.currentLesson.pinyin`; that state is unreachable once a non-empty store
is shown, and is modelled as a no-op.) -/
def checkAnswer (s : AppState) : AppState :=
  if jsTrim s.practiceAnswerValue == "" then
    showNotification s "Please enter your answer first."
  else
    match s.currentLesson with
    | none => s
    | some lesson =>
      if compareAnswers (jsTrim s.practiceAnswerValue)
          (expectedAnswer s lesson) then
        updateStats
          { showCorrectFeedback s with
            completedLessons := insert lesson.id s.completedLessons }
      else
        showIncorrectFeedback s (jsTrim s.practiceAnswerValue)
          (expectedAnswer s lesson)

/-- Model of `showAnswer()`. -/
def showAnswer (s : AppState) : AppState :=
  match s.currentLesson with
  | none => s
  | some lesson =>
    { s with
      practiceAnswerValue := expectedAnswer s lesson
      practiceAnswerClass := "correct"
      feedbackClass := "feedback-area feedback-correct"
      feedbackHtml := answerShownHtml (expectedAnswer s lesson)
      checkBtnHidden := true
      nextPracticeBtnHidden := false }

/-- Model of `nextPracticeLesson()`. -/
def nextPracticeLesson (s : AppState) : AppState :=
  if s.currentLessonIndex < (s.lessons.length : Int) - 1 then
    resetPractice (showLesson s (s.currentLessonIndex + 1))
  else
    exitPracticeMode
      (showNotification s "🎉 Congratulations! You've completed all lessons!")

/-- The "stop current audio if playing" block shared by both players: the
prior handle (if any) is paused, rewound, and retired to the ghost list
before a new handle replaces it. -/
def retireAudio (cur : Option AudioHandle) (past : List AudioHandle) :
    List AudioHandle :=
  match cur with
  | some h => stopHandle h :: past
  | none => past

/-- Model of `playAudio()`: stop and retire any prior handle, create a fresh one for
the current lesson's clip, then (after the pre-flight existence check) start
it.  `ok` models whether the existence check and `play()` succeed; `errMsg`
models `error.message` on the failure path (handled by `handleAudioError`). -/
def playAudio (s : AppState) (ok : Bool) (errMsg : String) : AppState :=
  match s.currentLesson with
  | none => s
  | some lesson =>
    if ok then
      { s with
        pastAudios := retireAudio s.currentAudio s.pastAudios
        currentAudio := some
          { src := "../audio/" ++ lesson.audio_file
            paused := false
            currentTime := 0
            isFrench := false }
        playBtnLabel := "Playing..."
        playBtnDisabled := true }
    else
      { s with
        pastAudios := retireAudio s.currentAudio s.pastAudios
        currentAudio := some
          { src := "../audio/" ++ lesson.audio_file
            paused := true
            currentTime := 0
            isFrench := false }
        playBtnLabel := "Audio Error"
        playBtnDisabled := false
        notifications :=
          ("Audio Error: " ++ errMsg ++ ". Check browser console for details.") ::
            s.notifications }

/-- Model of `playFrenchAudio()`: same discipline against `currentAudio`, guarded on a
(truthy) `french_audio_file`. -/
def playFrenchAudio (s : AppState) (ok : Bool) (errMsg : String) : AppState :=
  match s.currentLesson with
  | none => showNotification s "No French audio available for this lesson."
  | some lesson =>
    if !jsTruthy lesson.french_audio_file then
      showNotification s "No French audio available for this lesson."
    else
      if ok then
        { s with
          pastAudios := retireAudio s.currentAudio s.pastAudios
          currentAudio := some
            { src := "../audio/" ++ lesson.french_audio_file.getD ""
              paused := false
              currentTime := 0
              isFrench := true }
          frenchBtnLabel := "Playing..."
          frenchBtnDisabled := true }
      else
        { s with
          pastAudios := retireAudio s.currentAudio s.pastAudios
          currentAudio := some
            { src := "../audio/" ++ lesson.french_audio_file.getD ""
              paused := true
              currentTime := 0
              isFrench := true }
          frenchBtnLabel := "French Audio Error"
          frenchBtnDisabled := false
          notifications :=
            ("French Audio Error: " ++ errMsg) :: s.notifications }

/-- Model of `playPracticeAudio()`: wraps `playAudio` between two status updates; the
final status is written after the awaited call returns. -/
def playPracticeAudio (s : AppState) (ok : Bool) (errMsg : String) : AppState :=
  { playAudio { s with audioStatusText := "Playing audio..." } ok errMsg with
    audioStatusText := "Audio played. Now write what you heard." }

/-- The `ended` listener on the active handle: the platform pauses the handle
at the end of the clip and the listener resets the button that started it. -/
def audioEnded (s : AppState) : AppState :=
  match s.currentAudio with
  | none => s
  | some h =>
    if h.isFrench then
      { s with
        currentAudio := some { h with paused := true }
        frenchBtnLabel := "Play French"
        frenchBtnDisabled := false }
    else
      { s with
        currentAudio := some { h with paused := true }
        playBtnLabel := "Play Chinese"
        playBtnDisabled := false }

/-- The state of a fresh `ChineseLearningApp` after the constructor and
`loadLessons` (fallback path: `totalCount` shows the list length), before
`showLesson(0)` and `updateStats` run. -/
def initialState (lessons : List LessonRecord) : AppState :=
  { lessons := lessons
    currentLessonIndex := 0
    currentLesson := none
    completedLessons := ∅
    currentAudio := none
    pastAudios := []
    lessonNumberText := ""
    chineseTextContent := ""
    pinyinTextContent := ""
    literalTextContent := ""
    englishTextContent := ""
    frenchTextContent := ""
    frenchRowVisible := false
    playFrenchBtnVisible := false
    progressFillPct := 0
    progressTextContent := ""
    lessonSelectValue := 0
    prevBtnDisabled := false
    nextBtnDisabled := false
    playBtnLabel := "Play Chinese"
    playBtnDisabled := false
    frenchBtnLabel := "Play French"
    frenchBtnDisabled := false
    studyHidden := false
    practiceHidden := true
    practicePinyinChecked := true
    practiceAnswerValue := ""
    practiceAnswerClass := ""
    feedbackClass := "feedback-area"
    feedbackHtml := ""
    checkBtnHidden := false
    nextPracticeBtnHidden := true
    audioStatusText := "Click to play audio"
    completedCountText := "0"
    totalCountText := toString lessons.length
    notifications := [] }

/-- Model of `initialize()` after `loadLessons`: `showLesson(0)` then `updateStats()`. -/
def appInit (lessons : List LessonRecord) : AppState :=
  updateStats (showLesson (initialState lessons) 0)

/-- The discrete user-visible operations of the controller (the targets of
its event listeners), with the environment's choices — selector index, audio
success, error text — as parameters. -/
inductive Op where
  | goTo (index : Int)
  | prev
  | next
  | enterPractice
  | exitPractice
  | reset
  | check
  | reveal
  | nextPractice
  | stats
  | playChinese (ok : Bool) (errMsg : String)
  | playFrench (ok : Bool) (errMsg : String)
  | playPractice (ok : Bool) (errMsg : String)
  | ended
  | notify (message : String)

/-- Dispatch one operation. -/
def applyOp (s : AppState) : Op → AppState
  | .goTo index => showLesson s index
  | .prev => previousLesson s
  | .next => nextLesson s
  | .enterPractice => enterPracticeMode s
  | .exitPractice => exitPracticeMode s
  | .reset => resetPractice s
  | .check => checkAnswer s
  | .reveal => showAnswer s
  | .nextPractice => nextPracticeLesson s
  | .stats => updateStats s
  | .playChinese ok errMsg => playAudio s ok errMsg
  | .playFrench ok errMsg => playFrenchAudio s ok errMsg
  | .playPractice ok errMsg => playPracticeAudio s ok errMsg
  | .ended => audioEnded s
  | .notify message => showNotification s message

/-- Run a sequence of operations. -/
def applyOps (s : AppState) (ops : List Op) : AppState :=
  ops.foldl applyOp s

/-- Every retired audio handle has been stopped. -/
def AudioInv (s : AppState) : Prop :=
  ∀ h ∈ s.pastAudios, h.paused = true

instance (s : AppState) : Decidable (AudioInv s) := by
  unfold AudioInv; infer_instance

/-- The number of unpaused audio handles, over every handle ever created. -/
def activeAudioCount (s : AppState) : Nat :=
  s.pastAudios.countP (fun h => !h.paused) +
    (match s.currentAudio with
     | some h => if h.paused then 0 else 1
     | none => 0)

theorem lowerCode_eq_self {m : Nat}
    (h : ¬(0x41 ≤ m ∧ m ≤ 0x5A) ∧ ¬((0xC0 ≤ m ∧ m ≤ 0xDE) ∧ m ≠ 0xD7) ∧
         ¬((0x100 ≤ m ∧ m ≤ 0x137 ∧ m % 2 = 0) ∧ m ≠ 0x130) ∧
         ¬(0x139 ≤ m ∧ m ≤ 0x148 ∧ m % 2 = 1) ∧
         ¬(0x14A ≤ m ∧ m ≤ 0x177 ∧ m % 2 = 0) ∧
         ¬(0x1CD ≤ m ∧ m ≤ 0x1DB ∧ m % 2 = 1)) : lowerCode m = m := by
  unfold lowerCode
  split_ifs <;> omega

theorem lowerCode_out (n : Nat) :
    lowerCode n = n ∨
    (0x61 ≤ lowerCode n ∧ lowerCode n ≤ 0x7A) ∨
    (0xE0 ≤ lowerCode n ∧ lowerCode n ≤ 0xFE) ∨
    (0x101 ≤ lowerCode n ∧ lowerCode n ≤ 0x137 ∧ lowerCode n % 2 = 1) ∨
    (0x13A ≤ lowerCode n ∧ lowerCode n ≤ 0x148 ∧ lowerCode n % 2 = 0) ∨
    (0x14B ≤ lowerCode n ∧ lowerCode n ≤ 0x177 ∧ lowerCode n % 2 = 1) ∨
    (0x1CE ≤ lowerCode n ∧ lowerCode n ≤ 0x1DC ∧ lowerCode n % 2 = 0) := by
  unfold lowerCode
  split_ifs <;> omega

theorem lowerCode_idem (n : Nat) : lowerCode (lowerCode n) = lowerCode n := by
  rcases lowerCode_out n with h | h
  · rw [h]
    exact h
  · exact lowerCode_eq_self (by omega)

theorem lowerCode_eq_or_lt (n : Nat) : lowerCode n = n ∨ lowerCode n < 0xD800 := by
  unfold lowerCode
  split_ifs <;> omega

theorem lowerCode_valid {n : Nat} (h : n.isValidChar) :
    (lowerCode n).isValidChar := by
  have h2 := lowerCode_eq_or_lt n
  unfold Nat.isValidChar at *
  omega

theorem toNat_ofNat_of_valid {n : Nat} (h : n.isValidChar) :
    (Char.ofNat n).toNat = n := by
  rw [Char.ofNat, dif_pos h]
  rfl

theorem toNat_jsToLower (c : Char) : (jsToLower c).toNat = lowerCode c.toNat :=
  toNat_ofNat_of_valid (lowerCode_valid c.valid)

theorem jsToLower_idem (c : Char) : jsToLower (jsToLower c) = jsToLower c := by
  show Char.ofNat (lowerCode (jsToLower c).toNat) = jsToLower c
  rw [toNat_jsToLower, lowerCode_idem]
  rfl

theorem isRemovedPunct_jsToLower (c : Char) :
    isRemovedPunct (jsToLower c) = isRemovedPunct c := by
  unfold isRemovedPunct
  rw [toNat_jsToLower]
  unfold punctCode lowerCode
  rw [decide_eq_decide]
  split_ifs <;> omega

theorem isJsSpace_jsToLower (c : Char) : isJsSpace (jsToLower c) = isJsSpace c := by
  unfold isJsSpace
  rw [toNat_jsToLower]
  unfold spaceCode lowerCode
  rw [decide_eq_decide]
  split_ifs <;> omega

theorem collapseSpaces_mem : ∀ (l : List Char), ∀ c ∈ collapseSpaces l,
    c = ' ' ∨ (c ∈ l ∧ isJsSpace c = false)
  | [] => by simp [collapseSpaces]
  | [a] => by
    intro c hc
    by_cases h : isJsSpace a = true
    · simp only [collapseSpaces, if_pos h, List.mem_singleton] at hc
      exact Or.inl hc
    · simp only [collapseSpaces, if_neg h, List.mem_singleton] at hc
      subst hc
      exact Or.inr ⟨List.mem_singleton_self c, by simpa using h⟩
  | a :: b :: rest => by
    intro c hc
    by_cases h : (isJsSpace a && isJsSpace b) = true
    · simp only [collapseSpaces, if_pos h] at hc
      rcases collapseSpaces_mem (b :: rest) c hc with h1 | ⟨h1, h2⟩
      · exact Or.inl h1
      · exact Or.inr ⟨List.mem_cons_of_mem a h1, h2⟩
    · simp only [collapseSpaces, if_neg h, List.mem_cons] at hc
      rcases hc with hc | hc
      · by_cases ha : isJsSpace a = true
        · rw [if_pos ha] at hc
          exact Or.inl hc
        · rw [if_neg ha] at hc
          subst hc
          exact Or.inr ⟨List.mem_cons_self c _, by simpa using ha⟩
      · rcases collapseSpaces_mem (b :: rest) c hc with h1 | ⟨h1, h2⟩
        · exact Or.inl h1
        · exact Or.inr ⟨List.mem_cons_of_mem a h1, h2⟩

theorem collapseSpaces_head? : ∀ (a : Char) (l : List Char),
    (collapseSpaces (a :: l)).head? = some (if isJsSpace a then ' ' else a)
  | a, [] => by
    by_cases h : isJsSpace a = true <;> simp [collapseSpaces, h]
  | a, b :: rest => by
    by_cases h : (isJsSpace a && isJsSpace b) = true
    · obtain ⟨ha, hb⟩ := Bool.and_eq_true_iff.mp h
      simp only [collapseSpaces, if_pos h]
      rw [collapseSpaces_head? b rest]
      simp [ha, hb]
    · simp only [collapseSpaces, if_neg h, List.head?_cons]

theorem collapseSpaces_chain' : ∀ (l : List Char),
    (collapseSpaces l).Chain' NoWsPair
  | [] => by simp [collapseSpaces]
  | [a] => by
    by_cases h : isJsSpace a = true <;> simp [collapseSpaces, h]
  | a :: b :: rest => by
    have ih := collapseSpaces_chain' (b :: rest)
    by_cases h : (isJsSpace a && isJsSpace b) = true
    · simpa only [collapseSpaces, if_pos h] using ih
    · simp only [collapseSpaces, if_neg h]
      rw [List.chain'_cons']
      refine ⟨?_, ih⟩
      intro y hy
      rw [collapseSpaces_head? b rest, Option.mem_def, Option.some_inj] at hy
      subst hy
      by_cases ha : isJsSpace a = true
      · have hb : isJsSpace b = false := by
          cases hbv : isJsSpace b
          · rfl
          · exact absurd (show (isJsSpace a && isJsSpace b) = true by
              rw [ha, hbv]; rfl) h
        rw [if_pos ha, if_neg (by simp [hb])]
        intro hpair
        rw [hb] at hpair
        exact absurd hpair.2 (by decide)
      · rw [if_neg ha]
        intro hpair
        exact ha hpair.1

theorem collapseSpaces_eq_self : ∀ (l : List Char),
    l.Chain' NoWsPair → (∀ c ∈ l, isJsSpace c = true → c = ' ') →
    collapseSpaces l = l
  | [], _, _ => rfl
  | [a], _, hws => by
    by_cases h : isJsSpace a = true
    · simp only [collapseSpaces, if_pos h]
      rw [hws a (List.mem_singleton_self a) h]
    · simp only [collapseSpaces, if_neg h]
  | a :: b :: rest, hch, hws => by
    have hpair : NoWsPair a b := (List.chain'_cons.mp hch).1
    have h : ¬((isJsSpace a && isJsSpace b) = true) := by
      intro hh
      exact hpair (Bool.and_eq_true_iff.mp hh)
    simp only [collapseSpaces, if_neg h]
    have htail : collapseSpaces (b :: rest) = b :: rest :=
      collapseSpaces_eq_self (b :: rest) (List.chain'_cons.mp hch).2
        (fun c hc hcw => hws c (List.mem_cons_of_mem a hc) hcw)
    rw [htail]
    by_cases ha : isJsSpace a = true
    · rw [if_pos ha, hws a (List.mem_cons_self a _) ha]
    · rw [if_neg ha]

theorem dropWhile_eq_self_of_head (l : List Char)
    (h : ∀ c, l.head? = some c → isJsSpace c = false) :
    l.dropWhile isJsSpace = l := by
  cases l with
  | nil => rfl
  | cons a t => exact List.dropWhile_cons_of_neg (by simp [h a rfl])

theorem jsTrimList_eq_self (l : List Char)
    (h1 : ∀ c, l.head? = some c → isJsSpace c = false)
    (h2 : ∀ c, l.getLast? = some c → isJsSpace c = false) :
    jsTrimList l = l := by
  unfold jsTrimList
  rw [dropWhile_eq_self_of_head l h1]
  rw [dropWhile_eq_self_of_head l.reverse
    (fun c hc => h2 c (by rwa [List.head?_reverse] at hc))]
  exact List.reverse_reverse l

theorem jsTrimList_prefix_aux (l : List Char) :
    jsTrimList l <+: l.dropWhile isJsSpace := by
  unfold jsTrimList
  conv_rhs => rw [← List.reverse_reverse (l.dropWhile isJsSpace)]
  exact List.reverse_prefix.mpr (List.dropWhile_suffix isJsSpace)

theorem jsTrimList_infixOf (l : List Char) : jsTrimList l <:+: l :=
  (jsTrimList_prefix_aux l).isInfix.trans (List.dropWhile_suffix isJsSpace).isInfix

theorem jsTrimList_head? (l : List Char) :
    ∀ c, (jsTrimList l).head? = some c → isJsSpace c = false := by
  intro c hc
  obtain ⟨t, ht⟩ := jsTrimList_prefix_aux l
  have hy : (l.dropWhile isJsSpace).head? = some c := by
    rw [← ht]
    cases hz : jsTrimList l with
    | nil => rw [hz] at hc; cases hc
    | cons d zs =>
      rw [hz] at hc
      simpa using hc
  have hmatch := List.head?_dropWhile_not isJsSpace l
  rw [hy] at hmatch
  exact hmatch

theorem jsTrimList_getLast? (l : List Char) :
    ∀ c, (jsTrimList l).getLast? = some c → isJsSpace c = false := by
  intro c hc
  unfold jsTrimList at hc
  rw [List.getLast?_reverse] at hc
  have hmatch := List.head?_dropWhile_not isJsSpace
    (l.dropWhile isJsSpace).reverse
  rw [hc] at hmatch
  exact hmatch

/-- Characters of a normalized list are lowercase-fixed, not stripped
punctuation, and the only whitespace they may contain is the plain space. -/
theorem normalizeList_canonical (l : List Char) :
    ∀ c ∈ normalizeList l,
      jsToLower c = c ∧ isRemovedPunct c = false ∧
        (isJsSpace c = true → c = ' ') := by
  intro c hc
  have hc2 : c ∈ collapseSpaces ((l.map jsToLower).filter
      fun c => !isRemovedPunct c) :=
    (jsTrimList_infixOf _).subset hc
  rcases collapseSpaces_mem _ c hc2 with rfl | ⟨hcin, hws⟩
  · exact ⟨by decide, by decide, fun _ => rfl⟩
  · rw [List.mem_filter] at hcin
    obtain ⟨hcmap, hpunct⟩ := hcin
    rw [List.mem_map] at hcmap
    obtain ⟨d, _, rfl⟩ := hcmap
    refine ⟨jsToLower_idem d, by simpa using hpunct, fun hws2 => ?_⟩
    rw [hws] at hws2
    cases hws2

theorem normalizeList_chain' (l : List Char) :
    (normalizeList l).Chain' NoWsPair :=
  List.Chain'.infix (collapseSpaces_chain' _) (jsTrimList_infixOf _)

/-- A list fixed by all four normalization stages is fixed by `normalizeList`. -/
theorem normalizeList_eq_self (m : List Char)
    (h1 : m.map jsToLower = m)
    (h2 : m.filter (fun c => !isRemovedPunct c) = m)
    (h3 : collapseSpaces m = m) (h4 : jsTrimList m = m) :
    normalizeList m = m := by
  unfold normalizeList
  rw [h1, h2, h3, h4]

theorem normalizeList_idem (l : List Char) :
    normalizeList (normalizeList l) = normalizeList l := by
  have hmem := normalizeList_canonical l
  refine normalizeList_eq_self (normalizeList l) ?_ ?_ ?_ ?_
  · rw [List.map_congr_left (fun c hc => (hmem c hc).1)]
    exact List.map_id _
  · exact List.filter_eq_self.mpr (fun c hc => by
      simp [(hmem c hc).2.1])
  · exact collapseSpaces_eq_self _ (normalizeList_chain' l)
      (fun c hc hw => (hmem c hc).2.2 hw)
  · exact jsTrimList_eq_self _ (jsTrimList_head? _) (jsTrimList_getLast? _)

theorem normalizeList_map_jsToLower (l : List Char) :
    normalizeList (l.map jsToLower) = normalizeList l := by
  unfold normalizeList
  rw [List.map_map]
  rw [List.map_congr_left (fun c _ => (by exact jsToLower_idem c :
    (jsToLower ∘ jsToLower) c = jsToLower c))]

theorem normalizeList_filter_punct (l : List Char) :
    normalizeList (l.filter fun c => !isRemovedPunct c) = normalizeList l := by
  have hcong : ∀ (m : List Char),
      m.filter ((fun c => !isRemovedPunct c) ∘ jsToLower)
        = m.filter (fun c => !isRemovedPunct c) :=
    fun m => List.filter_congr (fun c _ => by
      simp [Function.comp, isRemovedPunct_jsToLower])
  have key : ((l.filter (fun c => !isRemovedPunct c)).map jsToLower).filter
        (fun c => !isRemovedPunct c)
      = (l.map jsToLower).filter (fun c => !isRemovedPunct c) := by
    rw [List.filter_map, List.filter_map, hcong, hcong, List.filter_filter]
    exact congrArg (List.map jsToLower) (List.filter_congr (fun c _ => by simp))
  unfold normalizeList
  rw [key]

/-- C9: the normalization applied inside `compareAnswers` is exactly
`normalize`, and `normalize` is idempotent. -/
theorem normalize_idempotent :
    (∀ u c : String, compareAnswers u c = (normalize u == normalize c)) ∧
    (∀ x : String, normalize (normalize x) = normalize x) := by
  refine ⟨fun u c => rfl, fun x => ?_⟩
  show (⟨normalizeList (normalizeList x.data)⟩ : String) = ⟨normalizeList x.data⟩
  exact congrArg String.mk (normalizeList_idem x.data)

/-- C3: `compareAnswers` is insensitive to letter case, to the punctuation
set `{. , ， 。 ！ ？ ! ?}`, and to whitespace runs (`"Wǒ shì"` matches
`"wǒ   shì."`), but sensitive to pinyin diacritics: against lesson 2's
pinyin, the diacritic-free transcription compares false. -/
theorem compareAnswers_normalization_spec :
    (∀ u c : String, compareAnswers (jsToLowerString u) c = compareAnswers u c) ∧
    (∀ u c : String, compareAnswers (stripPunct u) c = compareAnswers u c) ∧
    compareAnswers "Wǒ shì" "wǒ   shì." = true ∧
    (getSampleLessons.get? 1).map LessonRecord.pinyin =
      some "Wǒ shì zuò fēijī lái de Shànghǎi." ∧
    compareAnswers "wo shi zuo feiji lai de shanghai"
      "Wǒ shì zuò fēijī lái de Shànghǎi." = false := by
  refine ⟨?_, ?_, by decide, by decide, by decide⟩
  · intro u c
    show (normalize (jsToLowerString u) == normalize c)
        = (normalize u == normalize c)
    have : normalize (jsToLowerString u) = normalize u :=
      congrArg String.mk (normalizeList_map_jsToLower u.data)
    rw [this]
  · intro u c
    show (normalize (stripPunct u) == normalize c)
        = (normalize u == normalize c)
    have : normalize (stripPunct u) = normalize u :=
      congrArg String.mk (normalizeList_filter_punct u.data)
    rw [this]

theorem showLesson_out (s : AppState) (index : Int)
    (h : index < 0 ∨ (s.lessons.length : Int) ≤ index) :
    showLesson s index = s := by
  unfold showLesson
  rw [dif_pos h]

theorem showLesson_in_fields (s : AppState) (index : Int)
    (h0 : 0 ≤ index) (h1 : index < (s.lessons.length : Int)) :
    (showLesson s index).currentLessonIndex = index ∧
    (showLesson s index).currentLesson = s.lessons.get? index.toNat := by
  have hcond : ¬(index < 0 ∨ (s.lessons.length : Int) ≤ index) := by omega
  have hlt : index.toNat < s.lessons.length := by omega
  unfold showLesson
  rw [dif_neg hcond]
  exact ⟨rfl, by simp [List.get?_eq_get hlt]⟩

theorem showLesson_frame (s : AppState) (index : Int) :
    (showLesson s index).lessons = s.lessons ∧
    (showLesson s index).completedLessons = s.completedLessons ∧
    (showLesson s index).completedCountText = s.completedCountText ∧
    (showLesson s index).currentAudio = s.currentAudio ∧
    (showLesson s index).pastAudios = s.pastAudios ∧
    (showLesson s index).practicePinyinChecked = s.practicePinyinChecked ∧
    (showLesson s index).practiceAnswerValue = s.practiceAnswerValue ∧
    (showLesson s index).feedbackHtml = s.feedbackHtml ∧
    (showLesson s index).feedbackClass = s.feedbackClass ∧
    (showLesson s index).checkBtnHidden = s.checkBtnHidden ∧
    (showLesson s index).nextPracticeBtnHidden = s.nextPracticeBtnHidden ∧
    (showLesson s index).audioStatusText = s.audioStatusText ∧
    (showLesson s index).practiceAnswerClass = s.practiceAnswerClass ∧
    (showLesson s index).studyHidden = s.studyHidden ∧
    (showLesson s index).practiceHidden = s.practiceHidden ∧
    (showLesson s index).notifications = s.notifications := by
  unfold showLesson
  split <;>
    exact ⟨rfl, rfl, rfl, rfl, rfl, rfl, rfl, rfl, rfl, rfl, rfl, rfl, rfl,
      rfl, rfl, rfl⟩

/-- C1: for every index in `[0, length-1]` of the non-empty lesson store,
`showLesson(index)` sets `currentLessonIndex` to that index and
`currentLesson` to the record at that position; for every index outside the
range, `showLesson(index)` leaves `currentLessonIndex` and `currentLesson`
unchanged. -/
theorem showLesson_goTo_spec (s : AppState) (index : Int) :
    (0 ≤ index → index < (s.lessons.length : Int) →
      (showLesson s index).currentLessonIndex = index ∧
      (showLesson s index).currentLesson = s.lessons.get? index.toNat) ∧
    ((index < 0 ∨ (s.lessons.length : Int) ≤ index) →
      (showLesson s index).currentLessonIndex = s.currentLessonIndex ∧
      (showLesson s index).currentLesson = s.currentLesson) := by
  constructor
  · intro h0 h1
    exact showLesson_in_fields s index h0 h1
  · intro h
    rw [showLesson_out s index h]
    exact ⟨rfl, rfl⟩

/-- Witness for C1 on the sample store: index 1 is in range and selected,
index 5 is out of range and ignored. -/
theorem showLesson_goTo_spec_witness :
    (showLesson (appInit getSampleLessons) 1).currentLessonIndex = 1 ∧
    (showLesson (appInit getSampleLessons) 1).currentLesson =
      (appInit getSampleLessons).lessons.get? 1 ∧
    (showLesson (appInit getSampleLessons) 5).currentLesson =
      (appInit getSampleLessons).currentLesson := by
  refine ⟨?_, ?_, ?_⟩
  · exact ((showLesson_goTo_spec (appInit getSampleLessons) 1).1
      (by decide) (by decide)).1
  · exact ((showLesson_goTo_spec (appInit getSampleLessons) 1).1
      (by decide) (by decide)).2
  · exact ((showLesson_goTo_spec (appInit getSampleLessons) 5).2
      (by decide)).2

/-- C2: `nextLesson()` increments the cursor except at the last index, where
it is a no-op; `previousLesson()` decrements it except at index 0, where it
is a no-op; no wraparound.  On the three-record sample store starting at
index 0, two `nextLesson()` calls reach the third record and a further call
leaves the state unchanged. -/
theorem navigation_clamped_spec (s : AppState)
    (h0 : 0 ≤ s.currentLessonIndex)
    (h1 : s.currentLessonIndex < (s.lessons.length : Int)) :
    ((s.currentLessonIndex < (s.lessons.length : Int) - 1 →
        (nextLesson s).currentLessonIndex = s.currentLessonIndex + 1) ∧
     (s.currentLessonIndex = (s.lessons.length : Int) - 1 →
        nextLesson s = s) ∧
     (0 < s.currentLessonIndex →
        (previousLesson s).currentLessonIndex = s.currentLessonIndex - 1) ∧
     (s.currentLessonIndex = 0 → previousLesson s = s)) ∧
    ((nextLesson (nextLesson (appInit getSampleLessons))).currentLessonIndex
        = 2 ∧
     (nextLesson (nextLesson (appInit getSampleLessons))).currentLesson
        = getSampleLessons.get? 2 ∧
     nextLesson (nextLesson (nextLesson (appInit getSampleLessons)))
        = nextLesson (nextLesson (appInit getSampleLessons))) := by
  refine ⟨⟨?_, ?_, ?_, ?_⟩, by decide, by decide, ?_⟩
  · intro hlt
    unfold nextLesson
    rw [if_pos hlt]
    exact (showLesson_in_fields s _ (by omega) (by omega)).1
  · intro heq
    unfold nextLesson
    rw [if_neg (by omega)]
  · intro hpos
    unfold previousLesson
    rw [if_pos hpos]
    exact (showLesson_in_fields s _ (by omega) (by omega)).1
  · intro heq
    unfold previousLesson
    rw [if_neg (by omega)]
  · have hidx : (nextLesson (nextLesson (appInit getSampleLessons))).currentLessonIndex
        = 2 := by decide
    have hlen : (nextLesson (nextLesson (appInit getSampleLessons))).lessons.length
        = 3 := by decide
    conv_lhs => rw [nextLesson]
    rw [hidx, hlen, if_neg (by decide)]

/-- Witness for C2 at a concrete in-range state. -/
theorem navigation_clamped_spec_witness :
    (nextLesson (appInit getSampleLessons)).currentLessonIndex = 1 := by
  have h := (navigation_clamped_spec (appInit getSampleLessons)
    (by decide) (by decide)).1.1 (by decide)
  simpa using h

/-- C4: when the user input is empty after trimming, `checkAnswer()` rejects
it before any comparison: the only effect is the "Please enter your answer
first." prompt, and `completedLessons`, the cursor, and all practice feedback
state are unchanged. -/
theorem checkAnswer_empty_input_spec (s : AppState)
    (h : jsTrim s.practiceAnswerValue = "") :
    checkAnswer s = showNotification s "Please enter your answer first." ∧
    (checkAnswer s).completedLessons = s.completedLessons ∧
    (checkAnswer s).currentLessonIndex = s.currentLessonIndex ∧
    (checkAnswer s).currentLesson = s.currentLesson ∧
    (checkAnswer s).feedbackHtml = s.feedbackHtml ∧
    (checkAnswer s).feedbackClass = s.feedbackClass ∧
    (checkAnswer s).practiceAnswerClass = s.practiceAnswerClass ∧
    (checkAnswer s).checkBtnHidden = s.checkBtnHidden ∧
    (checkAnswer s).nextPracticeBtnHidden = s.nextPracticeBtnHidden ∧
    (checkAnswer s).completedCountText = s.completedCountText := by
  have hmain : checkAnswer s = showNotification s "Please enter your answer first." := by
    unfold checkAnswer
    simp only [h]
    rfl
  rw [hmain]
  exact ⟨rfl, rfl, rfl, rfl, rfl, rfl, rfl, rfl, rfl, rfl⟩

/-- Witness for C4: the freshly initialized app has an empty practice input. -/
theorem checkAnswer_empty_input_spec_witness :
    jsTrim (appInit getSampleLessons).practiceAnswerValue = "" ∧
    checkAnswer (appInit getSampleLessons) =
      showNotification (appInit getSampleLessons)
        "Please enter your answer first." :=
  ⟨by decide, (checkAnswer_empty_input_spec (appInit getSampleLessons)
    (by decide)).1⟩

theorem checkAnswer_correct_eq (s : AppState) (L : LessonRecord)
    (hL : s.currentLesson = some L)
    (hne : jsTrim s.practiceAnswerValue ≠ "")
    (hcmp : compareAnswers (jsTrim s.practiceAnswerValue)
      (expectedAnswer s L) = true) :
    checkAnswer s = updateStats
      { showCorrectFeedback s with
        completedLessons := insert L.id s.completedLessons } := by
  unfold checkAnswer
  rw [if_neg (by simpa using hne)]
  simp only [hL]
  rw [if_pos hcmp]

theorem checkAnswer_incorrect_eq (s : AppState) (L : LessonRecord)
    (hL : s.currentLesson = some L)
    (hne : jsTrim s.practiceAnswerValue ≠ "")
    (hcmp : compareAnswers (jsTrim s.practiceAnswerValue)
      (expectedAnswer s L) = false) :
    checkAnswer s = showIncorrectFeedback s (jsTrim s.practiceAnswerValue)
      (expectedAnswer s L) := by
  unfold checkAnswer
  rw [if_neg (by simpa using hne)]
  simp only [hL]
  rw [if_neg (by simp [hcmp])]

theorem applyOp_completedLessons (s : AppState) (op : Op) :
    (applyOp s op).completedLessons = s.completedLessons ∨
    (∃ L : LessonRecord, s.currentLesson = some L ∧
      (applyOp s op).completedLessons = insert L.id s.completedLessons) := by
  cases op with
  | goTo index => exact Or.inl (showLesson_frame s index).2.1
  | prev =>
    show (previousLesson s).completedLessons = _ ∨ _
    unfold previousLesson
    split
    · exact Or.inl (showLesson_frame s _).2.1
    · exact Or.inl rfl
  | next =>
    show (nextLesson s).completedLessons = _ ∨ _
    unfold nextLesson
    split
    · exact Or.inl (showLesson_frame s _).2.1
    · exact Or.inl rfl
  | enterPractice => exact Or.inl rfl
  | exitPractice => exact Or.inl rfl
  | reset => exact Or.inl rfl
  | check =>
    show (checkAnswer s).completedLessons = s.completedLessons ∨
      (∃ L : LessonRecord, s.currentLesson = some L ∧
        (checkAnswer s).completedLessons = insert L.id s.completedLessons)
    unfold checkAnswer
    split
    · exact Or.inl rfl
    · split
      · exact Or.inl rfl
      · rename_i lesson heq
        split
        · exact Or.inr ⟨lesson, heq, rfl⟩
        · exact Or.inl rfl
  | reveal =>
    show (showAnswer s).completedLessons = _ ∨ _
    unfold showAnswer
    split
    · exact Or.inl rfl
    · exact Or.inl rfl
  | nextPractice =>
    show (nextPracticeLesson s).completedLessons = _ ∨ _
    unfold nextPracticeLesson
    split
    · exact Or.inl (showLesson_frame s _).2.1
    · exact Or.inl rfl
  | stats => exact Or.inl rfl
  | playChinese ok errMsg =>
    show (playAudio s ok errMsg).completedLessons = _ ∨ _
    unfold playAudio
    split
    · exact Or.inl rfl
    · split <;> exact Or.inl rfl
  | playFrench ok errMsg =>
    show (playFrenchAudio s ok errMsg).completedLessons = _ ∨ _
    unfold playFrenchAudio
    split
    · exact Or.inl rfl
    · split
      · exact Or.inl rfl
      · split <;> exact Or.inl rfl
  | playPractice ok errMsg =>
    show (playAudio { s with
        audioStatusText := "Playing audio..." } ok errMsg).completedLessons
      = _ ∨ _
    unfold playAudio
    split
    · exact Or.inl rfl
    · split <;> exact Or.inl rfl
  | ended =>
    show (audioEnded s).completedLessons = _ ∨ _
    unfold audioEnded
    split
    · exact Or.inl rfl
    · split <;> exact Or.inl rfl
  | notify message => exact Or.inl rfl

theorem applyOp_counter_aux (s : AppState) (op : Op)
    (h : s.completedCountText = toString s.completedLessons.card) :
    (applyOp s op).completedCountText
      = toString (applyOp s op).completedLessons.card := by
  cases op with
  | goTo index =>
    show (showLesson s index).completedCountText
      = toString (showLesson s index).completedLessons.card
    rw [(showLesson_frame s index).2.2.1, (showLesson_frame s index).2.1]
    exact h
  | prev =>
    show (previousLesson s).completedCountText
      = toString (previousLesson s).completedLessons.card
    unfold previousLesson
    split
    · rw [(showLesson_frame s _).2.2.1, (showLesson_frame s _).2.1]
      exact h
    · exact h
  | next =>
    show (nextLesson s).completedCountText
      = toString (nextLesson s).completedLessons.card
    unfold nextLesson
    split
    · rw [(showLesson_frame s _).2.2.1, (showLesson_frame s _).2.1]
      exact h
    · exact h
  | enterPractice => exact h
  | exitPractice => exact h
  | reset => exact h
  | check =>
    show (checkAnswer s).completedCountText
      = toString (checkAnswer s).completedLessons.card
    unfold checkAnswer
    split
    · exact h
    · split
      · exact h
      · split
        · rfl
        · exact h
  | reveal =>
    show (showAnswer s).completedCountText
      = toString (showAnswer s).completedLessons.card
    unfold showAnswer
    split
    · exact h
    · exact h
  | nextPractice =>
    show (nextPracticeLesson s).completedCountText
      = toString (nextPracticeLesson s).completedLessons.card
    unfold nextPracticeLesson
    split
    · show (showLesson s _).completedCountText
        = toString (showLesson s _).completedLessons.card
      rw [(showLesson_frame s _).2.2.1, (showLesson_frame s _).2.1]
      exact h
    · exact h
  | stats => rfl
  | playChinese ok errMsg =>
    show (playAudio s ok errMsg).completedCountText
      = toString (playAudio s ok errMsg).completedLessons.card
    unfold playAudio
    split
    · exact h
    · split <;> exact h
  | playFrench ok errMsg =>
    show (playFrenchAudio s ok errMsg).completedCountText
      = toString (playFrenchAudio s ok errMsg).completedLessons.card
    unfold playFrenchAudio
    split
    · exact h
    · split
      · exact h
      · split <;> exact h
  | playPractice ok errMsg =>
    show (playAudio { s with
        audioStatusText := "Playing audio..." } ok errMsg).completedCountText
      = toString (playAudio { s with
        audioStatusText := "Playing audio..." } ok errMsg).completedLessons.card
    unfold playAudio
    split
    · exact h
    · split <;> exact h
  | ended =>
    show (audioEnded s).completedCountText
      = toString (audioEnded s).completedLessons.card
    unfold audioEnded
    split
    · exact h
    · split <;> exact h
  | notify message => exact h

theorem retireAudio_paused (cur : Option AudioHandle)
    (past : List AudioHandle) (h : ∀ x ∈ past, x.paused = true) :
    ∀ x ∈ retireAudio cur past, x.paused = true := by
  cases cur with
  | none => exact h
  | some h0 =>
    intro x hx
    rcases List.mem_cons.mp hx with rfl | hx2
    · rfl
    · exact h x hx2

theorem audioInv_of_pastAudios_eq {s t : AppState}
    (e : t.pastAudios = s.pastAudios) (h : AudioInv s) : AudioInv t := by
  intro x hx
  exact h x (e ▸ hx)

theorem applyOp_audioInv (s : AppState) (op : Op) (h : AudioInv s) :
    AudioInv (applyOp s op) := by
  cases op with
  | goTo index =>
    exact audioInv_of_pastAudios_eq (showLesson_frame s index).2.2.2.2.1 h
  | prev =>
    show AudioInv (previousLesson s)
    unfold previousLesson
    split
    · exact audioInv_of_pastAudios_eq (showLesson_frame s _).2.2.2.2.1 h
    · exact h
  | next =>
    show AudioInv (nextLesson s)
    unfold nextLesson
    split
    · exact audioInv_of_pastAudios_eq (showLesson_frame s _).2.2.2.2.1 h
    · exact h
  | enterPractice => exact h
  | exitPractice => exact h
  | reset => exact h
  | check =>
    show AudioInv (checkAnswer s)
    unfold checkAnswer
    split
    · exact h
    · split
      · exact h
      · split
        · exact h
        · exact h
  | reveal =>
    show AudioInv (showAnswer s)
    unfold showAnswer
    split
    · exact h
    · exact h
  | nextPractice =>
    show AudioInv (nextPracticeLesson s)
    unfold nextPracticeLesson
    split
    · exact audioInv_of_pastAudios_eq (showLesson_frame s _).2.2.2.2.1 h
    · exact h
  | stats => exact h
  | playChinese ok errMsg =>
    show AudioInv (playAudio s ok errMsg)
    unfold playAudio
    split
    · exact h
    · split <;> exact retireAudio_paused s.currentAudio s.pastAudios h
  | playFrench ok errMsg =>
    show AudioInv (playFrenchAudio s ok errMsg)
    unfold playFrenchAudio
    split
    · exact h
    · split
      · exact h
      · split <;> exact retireAudio_paused s.currentAudio s.pastAudios h
  | playPractice ok errMsg =>
    show AudioInv (playAudio
      { s with audioStatusText := "Playing audio..." } ok errMsg)
    unfold playAudio
    split
    · exact h
    · split <;> exact retireAudio_paused s.currentAudio s.pastAudios h
  | ended =>
    show AudioInv (audioEnded s)
    unfold audioEnded
    split
    · exact h
    · split <;> exact h
  | notify message => exact h

theorem applyOps_audioInv (s : AppState) (ops : List Op) (h : AudioInv s) :
    AudioInv (applyOps s ops) := by
  induction ops generalizing s with
  | nil => exact h
  | cons op rest ih => exact ih (applyOp s op) (applyOp_audioInv s op h)

theorem activeAudioCount_le_one {s : AppState} (h : AudioInv s) :
    activeAudioCount s ≤ 1 := by
  unfold activeAudioCount
  have hz : s.pastAudios.countP (fun x => !x.paused) = 0 := by
    rw [List.countP_eq_zero]
    intro x hx
    simp [h x hx]
  rw [hz]
  cases s.currentAudio with
  | none => decide
  | some h0 =>
    show 0 + (if h0.paused then 0 else 1) ≤ 1
    split <;> omega

theorem answerShownHtml_ne_correct (a : String) :
    answerShownHtml a ≠ correctFeedbackHtml := by
  intro h
  have h21 : (answerShownHtml a).data[21]? = correctFeedbackHtml.data[21]? := by
    rw [h]
  have hL : (answerShownHtml a).data[21]? = some '💡' := by
    unfold answerShownHtml
    rw [String.data_append, String.data_append, List.append_assoc]
    rw [List.getElem?_append_left (by decide)]
    decide
  have hR : correctFeedbackHtml.data[21]? = some '✅' := by decide
  rw [hL, hR] at h21
  exact absurd h21 (by decide)

/-- C5: `completedLessons` behaves as a set of lesson ids: a correct check
inserts the current lesson's id; re-inserting a present id leaves the size
unchanged; no modelled operation ever removes an element (the set grows
monotonically); and the displayed completed counter always equals the set's
size (established at startup and preserved by every operation). -/
theorem completedLessons_set_spec :
    (∀ (s : AppState) (L : LessonRecord), s.currentLesson = some L →
      jsTrim s.practiceAnswerValue ≠ "" →
      compareAnswers (jsTrim s.practiceAnswerValue)
        (expectedAnswer s L) = true →
      (checkAnswer s).completedLessons = insert L.id s.completedLessons ∧
      (L.id ∈ s.completedLessons →
        (checkAnswer s).completedLessons.card = s.completedLessons.card)) ∧
    (∀ (s : AppState) (op : Op),
      s.completedLessons ⊆ (applyOp s op).completedLessons) ∧
    (∀ (s : AppState) (op : Op),
      s.completedCountText = toString s.completedLessons.card →
      (applyOp s op).completedCountText
        = toString (applyOp s op).completedLessons.card) ∧
    (∀ lessons : List LessonRecord,
      (appInit lessons).completedCountText
        = toString (appInit lessons).completedLessons.card) := by
  refine ⟨?_, ?_, applyOp_counter_aux, fun lessons => rfl⟩
  · intro s L hL hne hcmp
    rw [checkAnswer_correct_eq s L hL hne hcmp]
    refine ⟨rfl, fun hmem => ?_⟩
    show (insert L.id s.completedLessons).card = s.completedLessons.card
    exact Finset.card_insert_of_mem hmem
  · intro s op
    rcases applyOp_completedLessons s op with h | ⟨L, _, h⟩
    · rw [h]
    · rw [h]
      exact Finset.subset_insert _ _

/-- Witness for C5: answering lesson 1's pinyin correctly inserts id 1; with
id 1 already present the size stays 1; the rendered counter matches. -/
theorem completedLessons_set_spec_witness :
    (checkAnswer { appInit getSampleLessons with
        practiceAnswerValue := "wǒ jiào James, wǒ shì yīngguó rén" }).completedLessons
      = insert 1 (appInit getSampleLessons).completedLessons ∧
    (checkAnswer { appInit getSampleLessons with
        practiceAnswerValue := "wǒ jiào James, wǒ shì yīngguó rén"
        completedLessons := {1} }).completedLessons.card = ({1} : Finset Nat).card ∧
    (applyOp { appInit getSampleLessons with
        practiceAnswerValue := "wǒ jiào James, wǒ shì yīngguó rén" }
      Op.check).completedCountText
      = toString (applyOp { appInit getSampleLessons with
          practiceAnswerValue := "wǒ jiào James, wǒ shì yīngguó rén" }
        Op.check).completedLessons.card := by
  refine ⟨?_, ?_, ?_⟩
  · exact (completedLessons_set_spec.1 _
      { id := 1
        chinese := "我叫James，我是英国人。"
        pinyin := "Wǒ jiào James, wǒ shì Yīngguó rén."
        literal := "I called James, I am England person."
        english := "My name is James, I am British."
        audio_file := "lesson_01.mp3" }
      (by decide) (by decide) (by decide)).1
  · exact (completedLessons_set_spec.1 _
      { id := 1
        chinese := "我叫James，我是英国人。"
        pinyin := "Wǒ jiào James, wǒ shì Yīngguó rén."
        literal := "I called James, I am England person."
        english := "My name is James, I am British."
        audio_file := "lesson_01.mp3" }
      (by decide) (by decide) (by decide)).2 (by decide)
  · exact completedLessons_set_spec.2.2.1 _ Op.check (by decide)

/-- C6: for every lesson and either practice mode, `showAnswer()` writes the
expected answer into the input, shows the "answer shown" feedback (a variant
distinct from the "correct" feedback), hides the check button, reveals the
advance button, leaves `completedLessons` unchanged, and performs no
comparison — its result does not depend on the user's input at all. -/
theorem showAnswer_spec (s : AppState) (L : LessonRecord)
    (hL : s.currentLesson = some L) :
    (showAnswer s).practiceAnswerValue = expectedAnswer s L ∧
    (showAnswer s).feedbackHtml = answerShownHtml (expectedAnswer s L) ∧
    (∀ a : String, answerShownHtml a ≠ correctFeedbackHtml) ∧
    (showAnswer s).checkBtnHidden = true ∧
    (showAnswer s).nextPracticeBtnHidden = false ∧
    (showAnswer s).completedLessons = s.completedLessons ∧
    (∀ v : String,
      showAnswer { s with practiceAnswerValue := v } = showAnswer s) := by
  have heq : showAnswer s =
      { s with
        practiceAnswerValue := expectedAnswer s L
        practiceAnswerClass := "correct"
        feedbackClass := "feedback-area feedback-correct"
        feedbackHtml := answerShownHtml (expectedAnswer s L)
        checkBtnHidden := true
        nextPracticeBtnHidden := false } := by
    unfold showAnswer
    rw [hL]
  refine ⟨by rw [heq], by rw [heq], answerShownHtml_ne_correct, by rw [heq],
    by rw [heq], by rw [heq], ?_⟩
  intro v
  unfold showAnswer
  simp only [hL]
  rfl

/-- Witness for C6 at the freshly initialized sample store. -/
theorem showAnswer_spec_witness :
    (showAnswer (appInit getSampleLessons)).practiceAnswerValue
      = "Wǒ jiào James, wǒ shì Yīngguó rén." ∧
    (showAnswer (appInit getSampleLessons)).completedLessons
      = (appInit getSampleLessons).completedLessons := by
  have h := showAnswer_spec (appInit getSampleLessons)
    { id := 1
      chinese := "我叫James，我是英国人。"
      pinyin := "Wǒ jiào James, wǒ shì Yīngguó rén."
      literal := "I called James, I am England person."
      english := "My name is James, I am British."
      audio_file := "lesson_01.mp3" }
    (by decide)
  exact ⟨h.1, h.2.2.2.2.2.1⟩

set_option maxRecDepth 4096

/-- C7 counterexample: with the practice input `" x "` against lesson 1, the
incorrect-answer feedback shows the trimmed text `"x"`, not the user's
original text `" x "`. -/
theorem checkAnswer_incorrect_counterexample :
    (checkAnswer { appInit getSampleLessons with
        practiceAnswerValue := " x " }).feedbackHtml
      = incorrectFeedbackHtml "x" "Wǒ jiào James, wǒ shì Yīngguó rén." ∧
    (checkAnswer { appInit getSampleLessons with
        practiceAnswerValue := " x " }).feedbackHtml
      ≠ incorrectFeedbackHtml " x " "Wǒ jiào James, wǒ shì Yīngguó rén." := by
  exact ⟨by decide, by decide⟩

/-- C7 (amended): when the normalized comparison fails, `checkAnswer()`
shows the incorrect-answer feedback displaying the user's input trimmed of
surrounding whitespace side by side with the correct answer, leaves
`completedLessons` (and the counter) unchanged, and leaves the check action
enabled (the check button's visibility is untouched). -/
theorem checkAnswer_incorrect_spec (s : AppState) (L : LessonRecord)
    (hL : s.currentLesson = some L)
    (hne : jsTrim s.practiceAnswerValue ≠ "")
    (hcmp : compareAnswers (jsTrim s.practiceAnswerValue)
      (expectedAnswer s L) = false) :
    (checkAnswer s).feedbackHtml
      = incorrectFeedbackHtml (jsTrim s.practiceAnswerValue)
          (expectedAnswer s L) ∧
    (checkAnswer s).feedbackClass = "feedback-area feedback-incorrect" ∧
    (checkAnswer s).practiceAnswerClass = "incorrect" ∧
    (checkAnswer s).completedLessons = s.completedLessons ∧
    (checkAnswer s).completedCountText = s.completedCountText ∧
    (checkAnswer s).checkBtnHidden = s.checkBtnHidden ∧
    (checkAnswer s).nextPracticeBtnHidden = s.nextPracticeBtnHidden := by
  rw [checkAnswer_incorrect_eq s L hL hne hcmp]
  exact ⟨rfl, rfl, rfl, rfl, rfl, rfl, rfl⟩

/-- Witness for C7 at the `" x "` input. -/
theorem checkAnswer_incorrect_spec_witness :
    (checkAnswer { appInit getSampleLessons with
        practiceAnswerValue := " x " }).completedLessons
      = ({ appInit getSampleLessons with
          practiceAnswerValue := " x " } : AppState).completedLessons ∧
    (checkAnswer { appInit getSampleLessons with
        practiceAnswerValue := " x " }).checkBtnHidden
      = ({ appInit getSampleLessons with
          practiceAnswerValue := " x " } : AppState).checkBtnHidden := by
  have h := checkAnswer_incorrect_spec
    { appInit getSampleLessons with practiceAnswerValue := " x " }
    { id := 1
      chinese := "我叫James，我是英国人。"
      pinyin := "Wǒ jiào James, wǒ shì Yīngguó rén."
      literal := "I called James, I am England person."
      english := "My name is James, I am British."
      audio_file := "lesson_01.mp3" }
    (by decide) (by decide) (by decide)
  exact ⟨h.2.2.2.1, h.2.2.2.2.2.1⟩

/-- C10: `nextPracticeLesson()` away from the last index advances the cursor
and resets the transient practice state; at the last index it leaves the
cursor and `completedLessons` unchanged, pushes the congratulations
notification, and switches from practice view back to study view. -/
theorem nextPracticeLesson_spec (s : AppState)
    (h0 : 0 ≤ s.currentLessonIndex)
    (h1 : s.currentLessonIndex < (s.lessons.length : Int)) :
    (s.currentLessonIndex < (s.lessons.length : Int) - 1 →
      (nextPracticeLesson s).currentLessonIndex = s.currentLessonIndex + 1 ∧
      (nextPracticeLesson s).currentLesson
        = s.lessons.get? (s.currentLessonIndex + 1).toNat ∧
      (nextPracticeLesson s).practiceAnswerValue = "" ∧
      (nextPracticeLesson s).practiceAnswerClass = "" ∧
      (nextPracticeLesson s).feedbackHtml = "" ∧
      (nextPracticeLesson s).feedbackClass = "feedback-area" ∧
      (nextPracticeLesson s).checkBtnHidden = false ∧
      (nextPracticeLesson s).nextPracticeBtnHidden = true ∧
      (nextPracticeLesson s).audioStatusText = "Click to play audio" ∧
      (nextPracticeLesson s).completedLessons = s.completedLessons) ∧
    (s.currentLessonIndex = (s.lessons.length : Int) - 1 →
      (nextPracticeLesson s).currentLessonIndex = s.currentLessonIndex ∧
      (nextPracticeLesson s).currentLesson = s.currentLesson ∧
      (nextPracticeLesson s).completedLessons = s.completedLessons ∧
      (nextPracticeLesson s).notifications
        = "🎉 Congratulations! You've completed all lessons!"
            :: s.notifications ∧
      (nextPracticeLesson s).practiceHidden = true ∧
      (nextPracticeLesson s).studyHidden = false) := by
  constructor
  · intro hlt
    unfold nextPracticeLesson
    rw [if_pos hlt]
    refine ⟨?_, ?_, rfl, rfl, rfl, rfl, rfl, rfl, rfl, ?_⟩
    · show (showLesson s (s.currentLessonIndex + 1)).currentLessonIndex = _
      exact (showLesson_in_fields s _ (by omega) (by omega)).1
    · show (showLesson s (s.currentLessonIndex + 1)).currentLesson = _
      exact (showLesson_in_fields s _ (by omega) (by omega)).2
    · show (showLesson s (s.currentLessonIndex + 1)).completedLessons = _
      exact (showLesson_frame s _).2.1
  · intro heq
    unfold nextPracticeLesson
    rw [if_neg (by omega)]
    exact ⟨rfl, rfl, rfl, rfl, rfl, rfl⟩

/-- Witness for C10: advancing from index 0 of the sample store reaches
index 1 with cleared practice state; at index 2 (the last) it flips back to
the study view with the congratulations notification. -/
theorem nextPracticeLesson_spec_witness :
    (nextPracticeLesson (appInit getSampleLessons)).currentLessonIndex = 1 ∧
    (nextPracticeLesson (showLesson (appInit getSampleLessons) 2)).practiceHidden
      = true ∧
    (nextPracticeLesson (showLesson (appInit getSampleLessons) 2)).notifications
      = "🎉 Congratulations! You've completed all lessons!"
          :: (showLesson (appInit getSampleLessons) 2).notifications := by
  refine ⟨?_, ?_, ?_⟩
  · have h := ((nextPracticeLesson_spec (appInit getSampleLessons)
      (by decide) (by decide)).1 (by decide)).1
    have h2 : (appInit getSampleLessons).currentLessonIndex = 0 := by decide
    rw [h, h2]
    decide
  · exact ((nextPracticeLesson_spec (showLesson (appInit getSampleLessons) 2)
      (by decide) (by decide)).2 (by decide)).2.2.2.2.1
  · exact ((nextPracticeLesson_spec (showLesson (appInit getSampleLessons) 2)
      (by decide) (by decide)).2 (by decide)).2.2.2.1

/-- C8: starting a playback while a prior handle is active first stops it
(pauses and rewinds) and retires it, then creates and starts the new handle;
consequently, from the initial state, after any sequence of operations at
most one audio handle is ever unpaused. -/
theorem single_active_playback_spec :
    (∀ (s : AppState) (L : LessonRecord) (h0 : AudioHandle) (ok : Bool)
        (errMsg : String),
      s.currentLesson = some L → s.currentAudio = some h0 →
      (playAudio s ok errMsg).pastAudios = stopHandle h0 :: s.pastAudios ∧
      (playAudio s ok errMsg).currentAudio = some
        { src := "../audio/" ++ L.audio_file, paused := !ok,
          currentTime := 0, isFrench := false }) ∧
    (∀ (s : AppState) (L : LessonRecord) (h0 : AudioHandle) (ok : Bool)
        (errMsg : String),
      s.currentLesson = some L → jsTruthy L.french_audio_file = true →
      s.currentAudio = some h0 →
      (playFrenchAudio s ok errMsg).pastAudios
        = stopHandle h0 :: s.pastAudios ∧
      (playFrenchAudio s ok errMsg).currentAudio = some
        { src := "../audio/" ++ L.french_audio_file.getD "", paused := !ok,
          currentTime := 0, isFrench := true }) ∧
    (∀ (s : AppState) (ops : List Op), AudioInv s →
      activeAudioCount (applyOps s ops) ≤ 1) ∧
    (∀ lessons : List LessonRecord, AudioInv (appInit lessons)) ∧
    (∀ (lessons : List LessonRecord) (ops : List Op),
      activeAudioCount (applyOps (appInit lessons) ops) ≤ 1) := by
  have hmain : ∀ (s : AppState) (ops : List Op), AudioInv s →
      activeAudioCount (applyOps s ops) ≤ 1 :=
    fun s ops h => activeAudioCount_le_one (applyOps_audioInv s ops h)
  have hinit : ∀ lessons : List LessonRecord, AudioInv (appInit lessons) := by
    intro lessons x hx
    have he : (appInit lessons).pastAudios = ([] : List AudioHandle) :=
      (showLesson_frame (initialState lessons) 0).2.2.2.2.1
    rw [he] at hx
    cases hx
  refine ⟨?_, ?_, hmain, hinit, fun lessons ops => hmain _ ops (hinit lessons)⟩
  · intro s L h0 ok errMsg hL hA
    unfold playAudio
    simp only [hL]
    cases ok
    · rw [if_neg (by decide)]
      refine ⟨?_, rfl⟩
      show retireAudio s.currentAudio s.pastAudios = _
      rw [hA]
      rfl
    · rw [if_pos rfl]
      refine ⟨?_, rfl⟩
      show retireAudio s.currentAudio s.pastAudios = _
      rw [hA]
      rfl
  · intro s L h0 ok errMsg hL hfr hA
    unfold playFrenchAudio
    simp only [hL]
    rw [if_neg (by simp [hfr])]
    cases ok
    · rw [if_neg (by decide)]
      refine ⟨?_, rfl⟩
      show retireAudio s.currentAudio s.pastAudios = _
      rw [hA]
      rfl
    · rw [if_pos rfl]
      refine ⟨?_, rfl⟩
      show retireAudio s.currentAudio s.pastAudios = _
      rw [hA]
      rfl

/-- Witness for C8: a second play request on the sample store retires the
first handle stopped, and two successive play operations leave at most one
active handle. -/
theorem single_active_playback_spec_witness :
    (playAudio (playAudio (appInit getSampleLessons) true "") true "").pastAudios
      = stopHandle
          { src := "../audio/lesson_01.mp3"
            paused := false
            currentTime := 0
            isFrench := false }
        :: (playAudio (appInit getSampleLessons) true "").pastAudios ∧
    activeAudioCount (applyOps (appInit getSampleLessons)
      [Op.playChinese true "", Op.playChinese true ""]) ≤ 1 := by
  constructor
  · exact ((single_active_playback_spec.1
      (playAudio (appInit getSampleLessons) true "")
      { id := 1
        chinese := "我叫James，我是英国人。"
        pinyin := "Wǒ jiào James, wǒ shì Yīngguó rén."
        literal := "I called James, I am England person."
        english := "My name is James, I am British."
        audio_file := "lesson_01.mp3" }
      { src := "../audio/lesson_01.mp3"
        paused := false
        currentTime := 0
        isFrench := false }
      true "" (by decide) (by decide))).1
  · exact single_active_playback_spec.2.2.2.2 getSampleLessons
      [Op.playChinese true "", Op.playChinese true ""]

end ChineseLearningApp